import Mathlib

/-!
Shallow embedding of the tinyraytrace-rs ray tracer (src/main.rs, src/blocks.rs)
and verification of its specification.

The `f32` arithmetic of the source is modelled by the real numbers `ℝ`.
The vector library `src/vectors.rs` is referenced by `main.rs` but is not part
of the sources available under `src/`; its operations are modelled from the
specification (spec.md §3, §4.1), as marked on each definition.
-/

noncomputable section
open Classical

/-- Modelled from the spec: the `Vec3` type of the missing `src/vectors.rs` —
"three real-valued coordinates (x, y, z). Immutable value type." -/
structure Vec3 where
  x : ℝ
  y : ℝ
  z : ℝ
  deriving DecidableEq

namespace Vec3

/-- Modelled from the spec: the origin vector (0,0,0) (`Vec3::orig`). -/
def orig : Vec3 := ⟨0, 0, 0⟩

/-- Modelled from the spec: componentwise vector addition. -/
instance : Add Vec3 := ⟨fun a b => ⟨a.x + b.x, a.y + b.y, a.z + b.z⟩⟩

/-- Modelled from the spec: componentwise vector subtraction. -/
instance : Sub Vec3 := ⟨fun a b => ⟨a.x - b.x, a.y - b.y, a.z - b.z⟩⟩

/-- Modelled from the spec: componentwise negation (used by refraction). -/
instance : Neg Vec3 := ⟨fun a => ⟨-a.x, -a.y, -a.z⟩⟩

/-- Modelled from the spec: scalar multiplication (`Vec3::mult`). -/
def mult (v : Vec3) (c : ℝ) : Vec3 := ⟨v.x * c, v.y * c, v.z * c⟩

/-- Modelled from the spec: dot product. -/
def dot (v w : Vec3) : ℝ := v.x * w.x + v.y * w.y + v.z * w.z

/-- Modelled from the spec: Euclidean norm (`l2`). -/
def l2 (v : Vec3) : ℝ := Real.sqrt (v.x ^ 2 + v.y ^ 2 + v.z ^ 2)

/-- Modelled from the spec: normalization — "divides by norm". -/
def normalized (v : Vec3) : Vec3 :=
  let d := v.l2
  ⟨v.x / d, v.y / d, v.z / d⟩

/-- Modelled from the spec: projection onto another vector, "implemented as
`other.normalized() * (self·other_normalized)`". -/
def project_on (v w : Vec3) : Vec3 :=
  let wn := w.normalized
  wn.mult (v.dot wn)

/-- Modelled from the spec: reflection about a normal, `d - 2·(d·n)·n`. -/
def reflect (d n : Vec3) : Vec3 := d - n.mult (2 * d.dot n)

/-- Modelled from the spec: the cross product used by `Rectangle2D::new`
to obtain the plane normal from the two in-plane axes. -/
def cross (a b : Vec3) : Vec3 :=
  ⟨a.y * b.z - a.z * b.y, a.z * b.x - a.x * b.z, a.x * b.y - a.y * b.x⟩

/-- Modelled from the spec: refraction in "standard Snell's law vector form";
on total internal reflection (negative discriminant) the spec leaves the
fallback implementation-defined — the zero vector is returned here.
No claim depends on the value produced by this function. -/
def refract (d n : Vec3) (index : ℝ) : Vec3 :=
  let cosi := -(max (-1) (min 1 (d.dot n)))
  let nrm := if cosi < 0 then -n else n
  let cosa := |cosi|
  let eta := if cosi < 0 then index else 1 / index
  let k := 1 - eta ^ 2 * (1 - cosa ^ 2)
  if k < 0 then Vec3.orig else d.mult eta + nrm.mult (eta * cosa - Real.sqrt k)

end Vec3

/-- `f32::copysign` on the reals: the magnitude of `x` with the sign of `s`
(`s = 0` counts as positive, matching IEEE `+0.0`). -/
def copysign (x s : ℝ) : ℝ := if s < 0 then -|x| else |x|

/-- `DEFAULT_JITTER` constant of `main.rs`. -/
def DEFAULT_JITTER : ℝ := 0.001

/-- `MAX_RAY_BOUNCES` constant of `main.rs`. -/
def MAX_RAY_BOUNCES : ℕ := 4

/-- `Ray` of `blocks.rs`: origin plus (unit-norm) direction. -/
structure Ray where
  origin : Vec3
  direction : Vec3

namespace Ray

/-- `Ray::new`: origin at `Vec3::orig`, direction normalized. -/
def new (dir : Vec3) : Ray := ⟨Vec3.orig, dir.normalized⟩

/-- `Ray::set_origin`. -/
def set_origin (r : Ray) (o : Vec3) : Ray := { r with origin := o }

/-- `Ray::walk_dir`: `origin + direction·distance`. -/
def walk_dir (r : Ray) (distance : ℝ) : Vec3 := r.origin + r.direction.mult distance

end Ray

/-- `HitPoint` of `blocks.rs`. -/
inductive HitPoint where
  | Point (p : Vec3)
  | none

/-- `Material` of `blocks.rs`. The 8-bit pixel `image::Rgb<u8>` is modelled
as a triple of naturals. -/
structure Material where
  color : ℝ × ℝ × ℝ
  pixel : ℕ × ℕ × ℕ
  specular_exponent : ℝ
  refraction_index : ℝ
  diff_mixing_coef : ℝ
  spec_mixing_coef : ℝ
  reflection_mixing_coef : ℝ
  refraction_mixing_coef : ℝ

namespace Material

/-- Rust's saturating float-to-`u8` cast `as u8`: truncation toward zero
clamped into `[0,255]` (negative floors are sent to `0` by `Int.toNat`). -/
def toU8 (x : ℝ) : ℕ := (min ⌊x⌋ 255).toNat

/-- `Material::_to_pixel`: each channel is `(255·c) as u8`. -/
def _to_pixel (c : ℝ × ℝ × ℝ) : ℕ × ℕ × ℕ :=
  (toU8 (255 * c.1), toU8 (255 * c.2.1), toU8 (255 * c.2.2))

/-- `Material::new`. -/
def new (color : ℝ × ℝ × ℝ) (weights : ℝ × ℝ × ℝ × ℝ)
    (specular_exponent refraction_index : ℝ) : Material :=
  { color := color
    pixel := _to_pixel color
    specular_exponent := specular_exponent
    refraction_index := refraction_index
    diff_mixing_coef := weights.1
    spec_mixing_coef := weights.2.1
    reflection_mixing_coef := weights.2.2.1
    refraction_mixing_coef := weights.2.2.2 }

/-- `Material::default`: sky-blue background material. -/
def default : Material := Material.new (0.2, 0.7, 0.8) (1.0, 0.0, 0.0, 0.0) 1.0 1.0

/-- `Material::adjust_light`: per channel
`(c·(diffuse·diff_mixing_coef) + specular·spec_mixing_coef).max(0).min(1)`,
with the pixel recomputed from the new color. -/
def adjust_light (m : Material) (diffuse specular : ℝ) : Material :=
  let diff_albedo := diffuse * m.diff_mixing_coef
  let white_shift := specular * m.spec_mixing_coef
  let c : ℝ × ℝ × ℝ :=
    (min (max (m.color.1 * diff_albedo + white_shift) 0) 1,
     min (max (m.color.2.1 * diff_albedo + white_shift) 0) 1,
     min (max (m.color.2.2 * diff_albedo + white_shift) 0) 1)
  { m with color := c, pixel := _to_pixel c }

/-- `Material::_mix_materials`: per channel `(c₁ + coef·c₂).max(0).min(1)`. -/
def _mix_materials (m other : Material) (coef : ℝ) : Material :=
  let c : ℝ × ℝ × ℝ :=
    (min (max (m.color.1 + coef * other.color.1) 0) 1,
     min (max (m.color.2.1 + coef * other.color.2.1) 0) 1,
     min (max (m.color.2.2 + coef * other.color.2.2) 0) 1)
  { m with color := c, pixel := _to_pixel c }

/-- `Material::mix_reflection`. -/
def mix_reflection (m other : Material) : Material :=
  m._mix_materials other m.reflection_mixing_coef

/-- `Material::mix_refraction`. -/
def mix_refraction (m other : Material) : Material :=
  m._mix_materials other m.refraction_mixing_coef

end Material

/-- `LightSource` of `blocks.rs`. -/
structure LightSource where
  position : Vec3
  intensity : ℝ

/-- `Plane` of `blocks.rs`. -/
structure Plane where
  normal : Vec3
  point : Vec3

namespace Plane

/-- `Plane::ray_intersect` (RayCollision impl for Plane). -/
def ray_intersect (pl : Plane) (ray : Ray) : HitPoint :=
  let orig_to_point := pl.point - ray.origin
  let origin_to_plane_dist := pl.normal.dot orig_to_point
  let cos_dir_norm := pl.normal.dot ray.direction
  if cos_dir_norm * origin_to_plane_dist < 0 then HitPoint.none
  else HitPoint.Point (ray.walk_dir (origin_to_plane_dist / cos_dir_norm))

/-- `Plane::collision_normal`. -/
def collision_normal (pl : Plane) (_hit_point : Vec3) : Vec3 := pl.normal

/-- `Plane::collision_material` — note: returns the default material. -/
def collision_material (_pl : Plane) (_hit_point : Vec3) : Material := Material.default

end Plane

/-- `Rectangle2D` of `blocks.rs`. -/
structure Rectangle2D where
  width : Vec3
  height : Vec3
  plane : Plane
  material : Material

namespace Rectangle2D

/-- `Rectangle2D::new`. -/
def new (origin center side_dir : Vec3) (material : Material) : Rectangle2D :=
  let z := center - origin
  let e1 := side_dir.normalized
  let u := z.project_on e1
  let e2 := (z - u).normalized
  let w := 2 * (z.project_on e1).l2
  let h := 2 * (z.project_on e2).l2
  let normal := e1.cross e2
  { width := e1.mult w
    height := e2.mult h
    plane := { normal := normal, point := origin }
    material := material }

/-- `Rectangle2D::ray_intersect`: delegate to the plane, then accept the hit
only when the displacement from the plane's point projects within both the
`width` and `height` vectors. -/
def ray_intersect (rc : Rectangle2D) (ray : Ray) : HitPoint :=
  match rc.plane.ray_intersect ray with
  | HitPoint.none => HitPoint.none
  | HitPoint.Point p =>
    let d := p - rc.plane.point
    if (d.project_on rc.width).l2 ≤ rc.width.l2 ∧
       (d.project_on rc.height).l2 ≤ rc.height.l2 then
      HitPoint.Point p
    else HitPoint.none

/-- `Rectangle2D::collision_normal`. -/
def collision_normal (rc : Rectangle2D) (_hit_point : Vec3) : Vec3 := rc.plane.normal

/-- `Rectangle2D::collision_material`. -/
def collision_material (rc : Rectangle2D) (_hit_point : Vec3) : Material := rc.material

end Rectangle2D

/-- `Sphere` of `blocks.rs`. -/
structure Sphere where
  center : Vec3
  radius : ℝ
  material : Material

namespace Sphere

/-- `Sphere::ray_intersect` (the `.powf` calls are `Real.rpow`). -/
def ray_intersect (s : Sphere) (ray : Ray) : HitPoint :=
  let canonical_center := s.center - ray.origin
  let center_projected_ray := canonical_center.project_on ray.direction
  let dist_ctr_proj := (canonical_center - center_projected_ray).l2
  if dist_ctr_proj > s.radius then HitPoint.none
  else
    let dist_proj_intersect1 :=
      Real.sqrt (Real.rpow s.radius 2 - Real.rpow dist_ctr_proj 2)
    let dist_orig_proj := canonical_center.dot ray.direction
    if dist_orig_proj - dist_proj_intersect1 > 0 then
      HitPoint.Point (ray.walk_dir (dist_orig_proj - dist_proj_intersect1))
    else if dist_orig_proj + dist_proj_intersect1 > 0 then
      HitPoint.Point (ray.walk_dir (dist_orig_proj + dist_proj_intersect1))
    else HitPoint.none

/-- `Sphere::collision_normal`. -/
def collision_normal (s : Sphere) (hit_point : Vec3) : Vec3 :=
  (hit_point - s.center).normalized

/-- `Sphere::collision_material`. -/
def collision_material (s : Sphere) (_hit_point : Vec3) : Material := s.material

end Sphere

/-- A `SceneObject` (`Box<dyn RayCollision>`): one of the three primitives. -/
inductive SceneObject where
  | sphere (s : Sphere)
  | plane (p : Plane)
  | rect (r : Rectangle2D)

namespace SceneObject

/-- Trait dispatch of `RayCollision::ray_intersect`. -/
def ray_intersect : SceneObject → Ray → HitPoint
  | sphere s, ray => s.ray_intersect ray
  | plane p, ray => p.ray_intersect ray
  | rect r, ray => r.ray_intersect ray

/-- Trait dispatch of `RayCollision::collision_normal`. -/
def collision_normal : SceneObject → Vec3 → Vec3
  | sphere s, p => s.collision_normal p
  | plane pl, p => pl.collision_normal p
  | rect r, p => r.collision_normal p

/-- Trait dispatch of `RayCollision::collision_material`. -/
def collision_material : SceneObject → Vec3 → Material
  | sphere s, p => s.collision_material p
  | plane pl, p => pl.collision_material p
  | rect r, p => r.collision_material p

end SceneObject

/-- `CollisionState` of `main.rs`. -/
structure CollisionState where
  hit_point : Vec3
  normal : Vec3
  material : Material
  ray : Ray

/-- `jitter_along_normal` of `main.rs`. -/
def jitter_along_normal (pt direction normal : Vec3) (jitter : ℝ) : Vec3 :=
  pt + normal.mult (copysign jitter (direction.dot normal))

namespace CollisionState

/-- `CollisionState::_jitter`. -/
def _jitter (c : CollisionState) (dir : Vec3) (jitter : ℝ) : Vec3 :=
  jitter_along_normal c.hit_point dir c.normal jitter

/-- `CollisionState::reflected_ray`. -/
def reflected_ray (c : CollisionState) (jitter : ℝ) : Ray :=
  let reflect_dir := c.ray.direction.reflect c.normal
  (Ray.new reflect_dir).set_origin (c._jitter reflect_dir jitter)

/-- `CollisionState::refracted_ray`. -/
def refracted_ray (c : CollisionState) (jitter : ℝ) : Ray :=
  let refract_dir := (c.ray.direction.refract c.normal c.material.refraction_index).normalized
  (Ray.new refract_dir).set_origin (c._jitter refract_dir jitter)

end CollisionState

/-- One iteration of the `cast_ray` loop: take the intersection when it is
strictly closer than the best distance so far.  The running
`(dist, hit_point, normal, material)` state is `none` while no hit has been
recorded (`dist = f32::MAX` sentinel in the source). -/
def castStep (ray : Ray) (acc : Option (ℝ × Vec3 × Vec3 × Material))
    (s : SceneObject) : Option (ℝ × Vec3 × Vec3 × Material) :=
  match s.ray_intersect ray with
  | HitPoint.Point p =>
    let d := (p - ray.origin).l2
    match acc with
    | Option.none => some (d, p, s.collision_normal p, s.collision_material p)
    | some a =>
      if d < a.1 then some (d, p, s.collision_normal p, s.collision_material p)
      else some a
  | HitPoint.none => acc

/-- `cast_ray` of `main.rs`: fold the scene keeping the strictly closest hit,
then package the winner as a `CollisionState`. -/
def cast_ray (ray : Ray) (scene : List SceneObject) : Option CollisionState :=
  match scene.foldl (castStep ray) Option.none with
  | some (_, hp, n, m) => some ⟨hp, n, m, ray⟩
  | Option.none => Option.none

/-- `light_is_shadowed` of `main.rs`. -/
def light_is_shadowed (hit_point hit_normal light_position : Vec3)
    (scene : List SceneObject) : Bool :=
  let ldir := (light_position - hit_point).normalized
  let ldist := (light_position - hit_point).l2
  let shadow_orig := jitter_along_normal hit_point ldir hit_normal DEFAULT_JITTER
  let shadow_ray := (Ray.new ldir).set_origin shadow_orig
  match cast_ray shadow_ray scene with
  | some shadow => if (shadow.hit_point - shadow_orig).l2 < ldist then true else false
  | Option.none => false

/-- `get_light_adjustments` of `main.rs`: accumulate the diffuse and specular
sums over the lights, skipping a light entirely when it is shadowed. -/
def get_light_adjustments (collision : CollisionState) (scene : List SceneObject)
    (lights : List LightSource) : ℝ × ℝ :=
  lights.foldl
    (fun (acc : ℝ × ℝ) cur =>
      let ldir := (cur.position - collision.hit_point).normalized
      let diff_coef := max (ldir.dot collision.normal) 0
      if light_is_shadowed collision.hit_point collision.normal cur.position scene then acc
      else
        let spec_coef :=
          Real.rpow (max ((ldir.reflect collision.normal).dot collision.ray.direction) 0)
            collision.material.specular_exponent
        (acc.1 + cur.intensity * diff_coef, acc.2 + cur.intensity * spec_coef))
    (0, 0)

/-- `reflective_ray_cast` of `main.rs`. -/
def reflective_ray_cast (ray : Ray) (scene : List SceneObject)
    (lights : List LightSource) (depth : ℕ) : Material :=
  match cast_ray ray scene with
  | some collision =>
    if depth < MAX_RAY_BOUNCES then
      let reflected :=
        reflective_ray_cast (collision.reflected_ray DEFAULT_JITTER) scene lights (depth + 1)
      let refracted :=
        reflective_ray_cast (collision.refracted_ray DEFAULT_JITTER) scene lights (depth + 1)
      let ds := get_light_adjustments collision scene lights
      ((collision.material.adjust_light ds.1 ds.2).mix_reflection reflected).mix_refraction
        refracted
    else
      let ds := get_light_adjustments collision scene lights
      collision.material.adjust_light ds.1 ds.2
  | Option.none => Material.default
termination_by MAX_RAY_BOUNCES - depth
decreasing_by all_goals (simp_wf; omega)

/-- The terminal (depth-exhausted) behaviour of `reflective_ray_cast`:
local shading only, no recursion. -/
def localShadeOnly (ray : Ray) (scene : List SceneObject)
    (lights : List LightSource) : Material :=
  match cast_ray ray scene with
  | some collision =>
    let ds := get_light_adjustments collision scene lights
    collision.material.adjust_light ds.1 ds.2
  | Option.none => Material.default

/-- Number of leaf local-shading evaluations performed by
`reflective_ray_cast` (the depth-exhausted shadings at the bottom of the
reflection/refraction recursion tree). -/
def countLeafShades (ray : Ray) (scene : List SceneObject)
    (lights : List LightSource) (depth : ℕ) : ℕ :=
  match cast_ray ray scene with
  | some collision =>
    if depth < MAX_RAY_BOUNCES then
      countLeafShades (collision.reflected_ray DEFAULT_JITTER) scene lights (depth + 1) +
      countLeafShades (collision.refracted_ray DEFAULT_JITTER) scene lights (depth + 1)
    else 1
  | Option.none => 0
termination_by MAX_RAY_BOUNCES - depth
decreasing_by all_goals (simp_wf; omega)

/-- Total number of calls to `reflective_ray_cast` in the recursion tree
(including the initial call). -/
def countCalls (ray : Ray) (scene : List SceneObject)
    (lights : List LightSource) (depth : ℕ) : ℕ :=
  match cast_ray ray scene with
  | some collision =>
    if depth < MAX_RAY_BOUNCES then
      1 + countCalls (collision.reflected_ray DEFAULT_JITTER) scene lights (depth + 1) +
      countCalls (collision.refracted_ray DEFAULT_JITTER) scene lights (depth + 1)
    else 1
  | Option.none => 1
termination_by MAX_RAY_BOUNCES - depth
decreasing_by all_goals (simp_wf; omega)

/-- Clamping to `[0,1]` as performed by every material mixing step
(`.max(0.).min(1.)`). -/
def clamp01 (x : ℝ) : ℝ := min (max x 0) 1

/-- One material-updating operation of the shading pipeline. -/
inductive MatOp where
  | adjust (diffuse specular : ℝ)
  | mixRefl (other : Material)
  | mixRefr (other : Material)

/-- Apply one material operation. -/
def applyOp (m : Material) : MatOp → Material
  | MatOp.adjust d s => m.adjust_light d s
  | MatOp.mixRefl other => m.mix_reflection other
  | MatOp.mixRefr other => m.mix_refraction other

/-- Apply a sequence of material operations left to right. -/
def applyOps (m : Material) (ops : List MatOp) : Material := ops.foldl applyOp m

/-! ### Characterization of the `cast_ray` fold -/

/-- Characterization of the loop of `cast_ray`, generalized over the running
accumulator: either no intersection strictly improves on the accumulator and
the fold returns it unchanged, or the fold returns the first primitive whose
hit attains the strict minimum distance. -/
lemma foldl_castStep_spec (ray : Ray) (l : List SceneObject) :
    ∀ acc : Option (ℝ × Vec3 × Vec3 × Material),
    (l.foldl (castStep ray) acc = acc ∧
       ∀ i, ∀ hi : i < l.length, ∀ q,
         (l.get ⟨i, hi⟩).ray_intersect ray = HitPoint.Point q →
         ∃ a, acc = some a ∧ a.1 ≤ (q - ray.origin).l2)
    ∨ (∃ i, ∃ hi : i < l.length, ∃ p,
         (l.get ⟨i, hi⟩).ray_intersect ray = HitPoint.Point p ∧
         l.foldl (castStep ray) acc =
           some ((p - ray.origin).l2, p, (l.get ⟨i, hi⟩).collision_normal p,
             (l.get ⟨i, hi⟩).collision_material p) ∧
         (∀ a, acc = some a → (p - ray.origin).l2 < a.1) ∧
         (∀ j, ∀ hj : j < l.length, ∀ q,
           (l.get ⟨j, hj⟩).ray_intersect ray = HitPoint.Point q →
           (p - ray.origin).l2 ≤ (q - ray.origin).l2) ∧
         (∀ j, j < i → ∀ hj : j < l.length, ∀ q,
           (l.get ⟨j, hj⟩).ray_intersect ray = HitPoint.Point q →
           (p - ray.origin).l2 < (q - ray.origin).l2)) := by
  induction l with
  | nil =>
    intro acc
    left
    exact ⟨rfl, fun i hi => absurd hi (by simp)⟩
  | cons s t ih =>
    intro acc
    rcases hs : s.ray_intersect ray with p₀ | _
    · -- the head primitive hits at `p₀`
      by_cases hbeat : ∀ a, acc = some a → (p₀ - ray.origin).l2 < a.1
      · -- the head strictly improves on the accumulator and replaces it
        have hstep : castStep ray acc s =
            some ((p₀ - ray.origin).l2, p₀, s.collision_normal p₀,
              s.collision_material p₀) := by
          cases acc with
          | none => simp [castStep, hs]
          | some a =>
            have hlt : (p₀ - ray.origin).l2 < a.1 := hbeat a rfl
            simp [castStep, hs, hlt]
        have hfold : (s :: t).foldl (castStep ray) acc =
            t.foldl (castStep ray)
              (some ((p₀ - ray.origin).l2, p₀, s.collision_normal p₀,
                s.collision_material p₀)) := by
          simp [List.foldl, hstep]
        rcases ih (some ((p₀ - ray.origin).l2, p₀, s.collision_normal p₀,
            s.collision_material p₀)) with
          ⟨heq, hbound⟩ | ⟨i, hi, p, hhit, heq, hacc, hmin, hstrict⟩
        · -- nothing in the tail improves on the head: the head wins
          right
          refine ⟨0, Nat.succ_pos _, p₀, hs, ?_, hbeat, ?_, ?_⟩
          · exact hfold.trans heq
          · intro j hj q hq
            cases j with
            | zero =>
              have : q = p₀ := by
                have := hq.symm.trans hs
                injection this
              simp [this]
            | succ k =>
              have hk : k < t.length := Nat.lt_of_succ_lt_succ hj
              obtain ⟨a, ha, hale⟩ := hbound k hk q hq
              injection ha with ha
              calc (p₀ - ray.origin).l2 = a.1 := by rw [← ha]
                _ ≤ (q - ray.origin).l2 := hale
          · intro j hj0
            exact absurd hj0 (Nat.not_lt_zero j)
        · -- some tail primitive wins, strictly beating the head as well
          have hpd : (p - ray.origin).l2 < (p₀ - ray.origin).l2 := by
            simpa using hacc _ rfl
          right
          refine ⟨i + 1, Nat.succ_lt_succ hi, p, hhit, ?_, ?_, ?_, ?_⟩
          · exact hfold.trans heq
          · intro a ha
            exact hpd.trans (hbeat a ha)
          · intro j hj q hq
            cases j with
            | zero =>
              have : q = p₀ := by
                have := hq.symm.trans hs
                injection this
              simp [this, hpd.le]
            | succ k =>
              exact hmin k (Nat.lt_of_succ_lt_succ hj) q hq
          · intro j hj hjlen q hq
            cases j with
            | zero => 
              have : q = p₀ := by
                have := hq.symm.trans hs
                injection this
              simp [this, hpd]
            | succ k =>
              exact hstrict k (Nat.lt_of_succ_lt_succ hj)
                (Nat.lt_of_succ_lt_succ hjlen) q hq
      · -- the head does not improve on the accumulator: it is discarded
        push_neg at hbeat
        obtain ⟨a, ha, hale⟩ := hbeat
        have hstep : castStep ray acc s = acc := by
          subst ha
          have hnlt : ¬ (p₀ - ray.origin).l2 < a.1 := not_lt.mpr hale
          simp [castStep, hs, hnlt]
        have hfold : (s :: t).foldl (castStep ray) acc =
            t.foldl (castStep ray) acc := by
          simp [List.foldl, hstep]
        rcases ih acc with ⟨heq, hbound⟩ | ⟨i, hi, p, hhit, heq, hacc, hmin, hstrict⟩
        · left
          refine ⟨hfold.trans heq, ?_⟩
          intro j hj q hq
          cases j with
          | zero =>
            have : q = p₀ := by
              have := hq.symm.trans hs
              injection this
            exact ⟨a, ha, by rw [this]; exact hale⟩
          | succ k =>
            exact hbound k (Nat.lt_of_succ_lt_succ hj) q hq
        · right
          have hpa : (p - ray.origin).l2 < a.1 := hacc a ha
          have hpd : (p - ray.origin).l2 < (p₀ - ray.origin).l2 :=
            lt_of_lt_of_le hpa hale
          refine ⟨i + 1, Nat.succ_lt_succ hi, p, hhit, ?_, hacc, ?_, ?_⟩
          · exact hfold.trans heq
          · intro j hj q hq
            cases j with
            | zero =>
              have : q = p₀ := by
                have := hq.symm.trans hs
                injection this
              simp [this, hpd.le]
            | succ k =>
              exact hmin k (Nat.lt_of_succ_lt_succ hj) q hq
          · intro j hj hjlen q hq
            cases j with
            | zero =>
              have : q = p₀ := by
                have := hq.symm.trans hs
                injection this
              simp [this, hpd]
            | succ k =>
              exact hstrict k (Nat.lt_of_succ_lt_succ hj)
                (Nat.lt_of_succ_lt_succ hjlen) q hq
    · -- the head primitive misses: the accumulator passes through
      have hstep : castStep ray acc s = acc := by
        cases acc with
        | none => simp [castStep, hs]
        | some a => simp [castStep, hs]
      have hfold : (s :: t).foldl (castStep ray) acc =
          t.foldl (castStep ray) acc := by
        simp [List.foldl, hstep]
      rcases ih acc with ⟨heq, hbound⟩ | ⟨i, hi, p, hhit, heq, hacc, hmin, hstrict⟩
      · left
        refine ⟨hfold.trans heq, ?_⟩
        intro j hj q hq
        cases j with
        | zero =>
          exfalso
          have := hq.symm.trans hs
          exact HitPoint.noConfusion this
        | succ k =>
          exact hbound k (Nat.lt_of_succ_lt_succ hj) q hq
      · right
        refine ⟨i + 1, Nat.succ_lt_succ hi, p, hhit, ?_, hacc, ?_, ?_⟩
        · exact hfold.trans heq
        · intro j hj q hq
          cases j with
          | zero =>
            exfalso
            have := hq.symm.trans hs
            exact HitPoint.noConfusion this
          | succ k =>
            exact hmin k (Nat.lt_of_succ_lt_succ hj) q hq
        · intro j hj hjlen q hq
          cases j with
          | zero =>
            exfalso
            have := hq.symm.trans hs
            exact HitPoint.noConfusion this
          | succ k =>
            exact hstrict k (Nat.lt_of_succ_lt_succ hj)
              (Nat.lt_of_succ_lt_succ hjlen) q hq

/-- `cast_ray` returns `none` exactly when no primitive reports a hit. -/
lemma cast_ray_eq_none_iff (ray : Ray) (scene : List SceneObject) :
    cast_ray ray scene = Option.none ↔
      ∀ s ∈ scene, s.ray_intersect ray = HitPoint.none := by
  constructor
  · intro h s hs
    cases hcase : s.ray_intersect ray with
    | none => rfl
    | Point q =>
      exfalso
      rcases List.mem_iff_get.mp hs with ⟨j, hj⟩
      rcases foldl_castStep_spec ray scene Option.none with
        ⟨heq, hbound⟩ | ⟨i, hi, p, hhit, heq, _, _, _⟩
      · obtain ⟨a, ha, _⟩ := hbound j.1 j.2 q (by rw [Fin.eta, hj]; exact hcase)
        exact Option.noConfusion ha
      · rw [cast_ray, heq] at h
        exact Option.noConfusion h
  · intro hall
    rcases foldl_castStep_spec ray scene Option.none with
      ⟨heq, _⟩ | ⟨i, hi, p, hhit, _, _, _, _⟩
    · rw [cast_ray, heq]
    · rw [hall _ (List.get_mem scene i hi)] at hhit
      exact HitPoint.noConfusion hhit

/-- When `cast_ray` returns a collision, it is the record of the first
primitive attaining the minimum hit distance. -/
lemma cast_ray_some_spec (ray : Ray) (scene : List SceneObject) (c : CollisionState)
    (h : cast_ray ray scene = some c) :
    c.ray = ray ∧
    ∃ i, ∃ hi : i < scene.length, ∃ p,
      (scene.get ⟨i, hi⟩).ray_intersect ray = HitPoint.Point p ∧
      c.hit_point = p ∧
      c.normal = (scene.get ⟨i, hi⟩).collision_normal p ∧
      c.material = (scene.get ⟨i, hi⟩).collision_material p ∧
      (∀ j, ∀ hj : j < scene.length, ∀ q,
        (scene.get ⟨j, hj⟩).ray_intersect ray = HitPoint.Point q →
        (p - ray.origin).l2 ≤ (q - ray.origin).l2) ∧
      (∀ j, j < i → ∀ hj : j < scene.length, ∀ q,
        (scene.get ⟨j, hj⟩).ray_intersect ray = HitPoint.Point q →
        (p - ray.origin).l2 < (q - ray.origin).l2) := by
  rcases foldl_castStep_spec ray scene Option.none with
    ⟨heq, _⟩ | ⟨i, hi, p, hhit, heq, _, hmin, hstrict⟩
  · rw [cast_ray, heq] at h
    exact Option.noConfusion h
  · rw [cast_ray, heq] at h
    injection h with h
    subst h
    exact ⟨rfl, i, hi, p, hhit, rfl, rfl, rfl, hmin, hstrict⟩

/-- When some primitive reports a hit, `cast_ray` returns a collision. -/
lemma cast_ray_isSome_of_hit (ray : Ray) (scene : List SceneObject)
    (s : SceneObject) (hs : s ∈ scene) (p : Vec3)
    (hp : s.ray_intersect ray = HitPoint.Point p) :
    ∃ c, cast_ray ray scene = some c := by
  cases hc : cast_ray ray scene with
  | some c => exact ⟨c, rfl⟩
  | none =>
    rw [cast_ray_eq_none_iff] at hc
    rw [hc s hs] at hp
    exact HitPoint.noConfusion hp

/-- C1: for every ray and every ordered scene of primitives, `cast_ray`
returns the intersection record (hit point, normal, material, ray) of the
primitive whose hit point has minimal distance from the ray origin among all
primitives that report a hit; it returns `none` exactly when no primitive
reports a hit; and on ties the primitive listed first in the scene wins — all
primitives listed before the winner that hit at all hit strictly farther
(the comparison is strictly-less). -/
theorem C1_cast_ray_nearest_first_hit (ray : Ray) (scene : List SceneObject) :
    (cast_ray ray scene = Option.none ↔
      ∀ s ∈ scene, s.ray_intersect ray = HitPoint.none) ∧
    ∀ c, cast_ray ray scene = some c →
      c.ray = ray ∧
      ∃ i, ∃ hi : i < scene.length, ∃ p,
        (scene.get ⟨i, hi⟩).ray_intersect ray = HitPoint.Point p ∧
        c.hit_point = p ∧
        c.normal = (scene.get ⟨i, hi⟩).collision_normal p ∧
        c.material = (scene.get ⟨i, hi⟩).collision_material p ∧
        (∀ j, ∀ hj : j < scene.length, ∀ q,
          (scene.get ⟨j, hj⟩).ray_intersect ray = HitPoint.Point q →
          (p - ray.origin).l2 ≤ (q - ray.origin).l2) ∧
        (∀ j, j < i → ∀ hj : j < scene.length, ∀ q,
          (scene.get ⟨j, hj⟩).ray_intersect ray = HitPoint.Point q →
          (p - ray.origin).l2 < (q - ray.origin).l2) :=
  ⟨cast_ray_eq_none_iff ray scene, fun c h => cast_ray_some_spec ray scene c h⟩

/-! ### Concrete evaluation helpers -/

@[simp] lemma Vec3.add_mk (a b c d e f : ℝ) :
    (⟨a, b, c⟩ : Vec3) + ⟨d, e, f⟩ = ⟨a + d, b + e, c + f⟩ := rfl

@[simp] lemma Vec3.sub_mk (a b c d e f : ℝ) :
    (⟨a, b, c⟩ : Vec3) - ⟨d, e, f⟩ = ⟨a - d, b - e, c - f⟩ := rfl

/-- Normalizing the concrete direction `(0,0,-1)` is the identity. -/
lemma normalized_negZ : (⟨0, 0, -1⟩ : Vec3).normalized = ⟨0, 0, -1⟩ := by
  have h1 : ((0 : ℝ) ^ 2 + (0 : ℝ) ^ 2 + (-1 : ℝ) ^ 2) = 1 := by norm_num
  simp [Vec3.normalized, Vec3.l2, h1, Real.sqrt_one]

/-- The concrete camera-style ray used by the witnesses. -/
lemma ray_new_negZ :
    Ray.new ⟨0, 0, -1⟩ = { origin := ⟨0, 0, 0⟩, direction := ⟨0, 0, -1⟩ } := by
  simp [Ray.new, normalized_negZ, Vec3.orig]

/-- The concrete plane `z = -2` is hit by the ray through `(0,0,-1)` at
`(0,0,-2)`. -/
lemma plane_negZ_hit :
    (SceneObject.plane ⟨⟨0, 0, 1⟩, ⟨0, 0, -2⟩⟩).ray_intersect (Ray.new ⟨0, 0, -1⟩) =
      HitPoint.Point ⟨0, 0, -2⟩ := by
  rw [ray_new_negZ]
  simp only [SceneObject.ray_intersect, Plane.ray_intersect, Vec3.sub_mk, Vec3.dot,
    Ray.walk_dir, Vec3.mult, Vec3.add_mk]
  norm_num

/-- Witness for C1: on the one-plane scene the ray through `(0,0,-1)` yields
the plane's collision record, whose stored ray is the cast ray. -/
theorem C1_witness :
    cast_ray (Ray.new ⟨0, 0, -1⟩) [SceneObject.plane ⟨⟨0, 0, 1⟩, ⟨0, 0, -2⟩⟩] =
        some ⟨⟨0, 0, -2⟩, ⟨0, 0, 1⟩, Material.default, Ray.new ⟨0, 0, -1⟩⟩ ∧
      (⟨⟨0, 0, -2⟩, ⟨0, 0, 1⟩, Material.default, Ray.new ⟨0, 0, -1⟩⟩ :
          CollisionState).ray = Ray.new ⟨0, 0, -1⟩ := by
  have heval :
      cast_ray (Ray.new ⟨0, 0, -1⟩) [SceneObject.plane ⟨⟨0, 0, 1⟩, ⟨0, 0, -2⟩⟩] =
        some ⟨⟨0, 0, -2⟩, ⟨0, 0, 1⟩, Material.default, Ray.new ⟨0, 0, -1⟩⟩ := by
    rw [cast_ray]
    simp only [List.foldl, castStep, plane_negZ_hit, SceneObject.collision_normal,
      Plane.collision_normal, SceneObject.collision_material, Plane.collision_material]
  exact ⟨heval,
    ((C1_cast_ray_nearest_first_hit (Ray.new ⟨0, 0, -1⟩)
        [SceneObject.plane ⟨⟨0, 0, 1⟩, ⟨0, 0, -2⟩⟩]).2 _ heval).1⟩

/-! ### C2: local shading -/

/-- The body of the light loop of `get_light_adjustments`, as a named
function (definitionally equal to the lambda in the source fold). -/
def lightStep (collision : CollisionState) (scene : List SceneObject)
    (acc : ℝ × ℝ) (cur : LightSource) : ℝ × ℝ :=
  let ldir := (cur.position - collision.hit_point).normalized
  let diff_coef := max (ldir.dot collision.normal) 0
  if light_is_shadowed collision.hit_point collision.normal cur.position scene then acc
  else
    let spec_coef :=
      Real.rpow (max ((ldir.reflect collision.normal).dot collision.ray.direction) 0)
        collision.material.specular_exponent
    (acc.1 + cur.intensity * diff_coef, acc.2 + cur.intensity * spec_coef)

/-- `get_light_adjustments` is the fold of `lightStep`. -/
lemma get_light_adjustments_eq_foldl (collision : CollisionState)
    (scene : List SceneObject) (lights : List LightSource) :
    get_light_adjustments collision scene lights =
      lights.foldl (lightStep collision scene) (0, 0) := rfl

/-- Folding `lightStep` adds the diffuse and specular sums of the
non-shadowed lights to the accumulator. -/
lemma light_foldl_aux (collision : CollisionState) (scene : List SceneObject) :
    ∀ (lights : List LightSource) (init : ℝ × ℝ),
      lights.foldl (lightStep collision scene) init =
      (init.1 +
        ((lights.filter (fun cur =>
            ! light_is_shadowed collision.hit_point collision.normal cur.position scene)).map
          (fun cur =>
            cur.intensity *
              max (((cur.position - collision.hit_point).normalized).dot collision.normal)
                0)).sum,
       init.2 +
        ((lights.filter (fun cur =>
            ! light_is_shadowed collision.hit_point collision.normal cur.position scene)).map
          (fun cur =>
            cur.intensity *
              Real.rpow
                (max ((((cur.position - collision.hit_point).normalized).reflect
                  collision.normal).dot collision.ray.direction) 0)
                collision.material.specular_exponent)).sum) := by
  intro lights
  induction lights with
  | nil => intro init; simp
  | cons cur t ih =>
    intro init
    rw [List.foldl_cons, ih, List.filter_cons]
    cases hsh : light_is_shadowed collision.hit_point collision.normal cur.position scene with
    | true =>
      simp [lightStep, hsh]
    | false =>
      simp [lightStep, hsh]
      constructor <;> ring

/-- The shadow test of `light_is_shadowed` holds exactly when some primitive
of the scene intersects the biased shadow ray strictly closer than the
light. -/
lemma light_is_shadowed_iff (hit_point hit_normal light_position : Vec3)
    (scene : List SceneObject) :
    light_is_shadowed hit_point hit_normal light_position scene = true ↔
      ∃ s ∈ scene, ∃ q,
        s.ray_intersect
            ((Ray.new ((light_position - hit_point).normalized)).set_origin
              (jitter_along_normal hit_point ((light_position - hit_point).normalized)
                hit_normal DEFAULT_JITTER)) = HitPoint.Point q ∧
        (q - jitter_along_normal hit_point ((light_position - hit_point).normalized)
            hit_normal DEFAULT_JITTER).l2 < (light_position - hit_point).l2 := by
  rw [light_is_shadowed]
  cases hc : cast_ray
      ((Ray.new ((light_position - hit_point).normalized)).set_origin
        (jitter_along_normal hit_point ((light_position - hit_point).normalized)
          hit_normal DEFAULT_JITTER)) scene with
  | none =>
    simp only [Bool.false_eq_true, false_iff]
    rintro ⟨s, hs, q, hq, -⟩
    rw [cast_ray_eq_none_iff] at hc
    rw [hc s hs] at hq
    exact HitPoint.noConfusion hq
  | some sh =>
    obtain ⟨-, i, hi, p, hhit, hp, -, -, hmin, -⟩ := cast_ray_some_spec _ _ _ hc
    by_cases hlt :
        (sh.hit_point - jitter_along_normal hit_point
          ((light_position - hit_point).normalized) hit_normal DEFAULT_JITTER).l2 <
          (light_position - hit_point).l2
    · simp only [if_pos hlt, true_iff]
      exact ⟨scene.get ⟨i, hi⟩, List.get_mem scene i hi, p, hhit, by rw [← hp]; exact hlt⟩
    · simp only [if_neg hlt, Bool.false_eq_true, false_iff]
      rintro ⟨s, hs, q, hq, hqlt⟩
      rcases List.mem_iff_get.mp hs with ⟨j, hj⟩
      apply hlt
      rw [hp]
      calc (p - jitter_along_normal hit_point ((light_position - hit_point).normalized)
              hit_normal DEFAULT_JITTER).l2
          ≤ (q - jitter_along_normal hit_point ((light_position - hit_point).normalized)
              hit_normal DEFAULT_JITTER).l2 :=
            hmin j.1 j.2 q (by rw [Fin.eta, hj]; exact hq)
        _ < (light_position - hit_point).l2 := hqlt

/-- C2: for every collision, scene and list of lights, local shading
accumulates the per-light diffuse term `max(dot, 0)·intensity` and specular
term `max(reflect·dir, 0)^exponent · intensity` over exactly the lights that
are not shadowed; and a light is shadowed precisely when some primitive
intersects the normal-biased shadow ray toward it at a distance smaller than
the distance to the light. -/
theorem C2_light_accumulation (collision : CollisionState) (scene : List SceneObject)
    (lights : List LightSource) :
    get_light_adjustments collision scene lights =
      (((lights.filter (fun cur =>
          ! light_is_shadowed collision.hit_point collision.normal cur.position scene)).map
          (fun cur =>
            cur.intensity *
              max (((cur.position - collision.hit_point).normalized).dot collision.normal)
                0)).sum,
       ((lights.filter (fun cur =>
          ! light_is_shadowed collision.hit_point collision.normal cur.position scene)).map
          (fun cur =>
            cur.intensity *
              Real.rpow
                (max ((((cur.position - collision.hit_point).normalized).reflect
                  collision.normal).dot collision.ray.direction) 0)
                collision.material.specular_exponent)).sum) ∧
    ∀ lp : Vec3,
      light_is_shadowed collision.hit_point collision.normal lp scene = true ↔
      ∃ s ∈ scene, ∃ q,
        s.ray_intersect
            ((Ray.new ((lp - collision.hit_point).normalized)).set_origin
              (jitter_along_normal collision.hit_point
                ((lp - collision.hit_point).normalized) collision.normal
                DEFAULT_JITTER)) = HitPoint.Point q ∧
        (q - jitter_along_normal collision.hit_point
            ((lp - collision.hit_point).normalized) collision.normal
            DEFAULT_JITTER).l2 < (lp - collision.hit_point).l2 := by
  constructor
  · rw [get_light_adjustments_eq_foldl, light_foldl_aux]
    simp
  · intro lp
    exact light_is_shadowed_iff collision.hit_point collision.normal lp scene

/-! ### C3: termination and recursion bounds -/

/-- Branch equation: `countLeafShades` on a miss. -/
lemma countLeafShades_none {ray : Ray} {scene : List SceneObject}
    (lights : List LightSource) (depth : ℕ) (h : cast_ray ray scene = Option.none) :
    countLeafShades ray scene lights depth = 0 := by
  rw [countLeafShades, h]

/-- Branch equation: `countLeafShades` on a hit. -/
lemma countLeafShades_some {ray : Ray} {scene : List SceneObject}
    {collision : CollisionState} (lights : List LightSource) (depth : ℕ)
    (h : cast_ray ray scene = some collision) :
    countLeafShades ray scene lights depth =
      if depth < MAX_RAY_BOUNCES then
        countLeafShades (collision.reflected_ray DEFAULT_JITTER) scene lights (depth + 1) +
        countLeafShades (collision.refracted_ray DEFAULT_JITTER) scene lights (depth + 1)
      else 1 := by
  rw [countLeafShades, h]

/-- Branch equation: `countCalls` on a miss. -/
lemma countCalls_none {ray : Ray} {scene : List SceneObject}
    (lights : List LightSource) (depth : ℕ) (h : cast_ray ray scene = Option.none) :
    countCalls ray scene lights depth = 1 := by
  rw [countCalls, h]

/-- Branch equation: `countCalls` on a hit. -/
lemma countCalls_some {ray : Ray} {scene : List SceneObject}
    {collision : CollisionState} (lights : List LightSource) (depth : ℕ)
    (h : cast_ray ray scene = some collision) :
    countCalls ray scene lights depth =
      if depth < MAX_RAY_BOUNCES then
        1 + countCalls (collision.reflected_ray DEFAULT_JITTER) scene lights (depth + 1) +
        countCalls (collision.refracted_ray DEFAULT_JITTER) scene lights (depth + 1)
      else 1 := by
  rw [countCalls, h]

/-- Branch equation: `reflective_ray_cast` on a miss. -/
lemma reflective_ray_cast_none {ray : Ray} {scene : List SceneObject}
    (lights : List LightSource) (depth : ℕ) (h : cast_ray ray scene = Option.none) :
    reflective_ray_cast ray scene lights depth = Material.default := by
  rw [reflective_ray_cast, h]

/-- Branch equation: `reflective_ray_cast` on a hit. -/
lemma reflective_ray_cast_some {ray : Ray} {scene : List SceneObject}
    {collision : CollisionState} (lights : List LightSource) (depth : ℕ)
    (h : cast_ray ray scene = some collision) :
    reflective_ray_cast ray scene lights depth =
      if depth < MAX_RAY_BOUNCES then
        ((collision.material.adjust_light
            (get_light_adjustments collision scene lights).1
            (get_light_adjustments collision scene lights).2).mix_reflection
          (reflective_ray_cast (collision.reflected_ray DEFAULT_JITTER) scene lights
            (depth + 1))).mix_refraction
          (reflective_ray_cast (collision.refracted_ray DEFAULT_JITTER) scene lights
            (depth + 1))
      else
        collision.material.adjust_light
          (get_light_adjustments collision scene lights).1
          (get_light_adjustments collision scene lights).2 := by
  rw [reflective_ray_cast, h]

/-- Branch equation: `localShadeOnly` on a miss. -/
lemma localShadeOnly_none {ray : Ray} {scene : List SceneObject}
    (lights : List LightSource) (h : cast_ray ray scene = Option.none) :
    localShadeOnly ray scene lights = Material.default := by
  rw [localShadeOnly, h]

/-- Branch equation: `localShadeOnly` on a hit. -/
lemma localShadeOnly_some {ray : Ray} {scene : List SceneObject}
    {collision : CollisionState} (lights : List LightSource)
    (h : cast_ray ray scene = some collision) :
    localShadeOnly ray scene lights =
      collision.material.adjust_light
        (get_light_adjustments collision scene lights).1
        (get_light_adjustments collision scene lights).2 := by
  rw [localShadeOnly, h]

/-- The leaf local-shading count is bounded by `2 ^ (MAX_RAY_BOUNCES - depth)`. -/
lemma countLeafShades_le (scene : List SceneObject) (lights : List LightSource) :
    ∀ n (ray : Ray) (depth : ℕ), MAX_RAY_BOUNCES - depth ≤ n →
      countLeafShades ray scene lights depth ≤ 2 ^ (MAX_RAY_BOUNCES - depth) := by
  intro n
  induction n with
  | zero =>
    intro ray depth h
    cases hc : cast_ray ray scene with
    | none => rw [countLeafShades_none lights depth hc]; positivity
    | some collision =>
      rw [countLeafShades_some lights depth hc, if_neg (by omega)]
      exact Nat.one_le_two_pow
  | succ n ih =>
    intro ray depth h
    cases hc : cast_ray ray scene with
    | none => rw [countLeafShades_none lights depth hc]; positivity
    | some collision =>
      rw [countLeafShades_some lights depth hc]
      by_cases hd : depth < MAX_RAY_BOUNCES
      · rw [if_pos hd]
        have h1 := ih (collision.reflected_ray DEFAULT_JITTER) (depth + 1) (by omega)
        have h2 := ih (collision.refracted_ray DEFAULT_JITTER) (depth + 1) (by omega)
        have hsplit : MAX_RAY_BOUNCES - depth = (MAX_RAY_BOUNCES - (depth + 1)) + 1 := by
          omega
        rw [hsplit, pow_succ]
        calc countLeafShades (collision.reflected_ray DEFAULT_JITTER) scene lights
                (depth + 1) +
              countLeafShades (collision.refracted_ray DEFAULT_JITTER) scene lights
                (depth + 1)
            ≤ 2 ^ (MAX_RAY_BOUNCES - (depth + 1)) + 2 ^ (MAX_RAY_BOUNCES - (depth + 1)) :=
              add_le_add h1 h2
          _ = 2 ^ (MAX_RAY_BOUNCES - (depth + 1)) * 2 := by ring
      · rw [if_neg hd]
        exact Nat.one_le_two_pow

/-- The total number of calls is bounded by `2 ^ (MAX_RAY_BOUNCES - depth + 1) - 1`. -/
lemma countCalls_le (scene : List SceneObject) (lights : List LightSource) :
    ∀ n (ray : Ray) (depth : ℕ), MAX_RAY_BOUNCES - depth ≤ n →
      countCalls ray scene lights depth ≤ 2 ^ (MAX_RAY_BOUNCES - depth + 1) - 1 := by
  intro n
  induction n with
  | zero =>
    intro ray depth h
    have hone : (2 : ℕ) ≤ 2 ^ (MAX_RAY_BOUNCES - depth + 1) :=
      le_self_pow₀ (by norm_num) (by omega)
    cases hc : cast_ray ray scene with
    | none => rw [countCalls_none lights depth hc]; omega
    | some collision =>
      rw [countCalls_some lights depth hc, if_neg (by omega)]
      omega
  | succ n ih =>
    intro ray depth h
    have hone : (2 : ℕ) ≤ 2 ^ (MAX_RAY_BOUNCES - depth + 1) :=
      le_self_pow₀ (by norm_num) (by omega)
    cases hc : cast_ray ray scene with
    | none => rw [countCalls_none lights depth hc]; omega
    | some collision =>
      rw [countCalls_some lights depth hc]
      by_cases hd : depth < MAX_RAY_BOUNCES
      · rw [if_pos hd]
        have h1 := ih (collision.reflected_ray DEFAULT_JITTER) (depth + 1) (by omega)
        have h2 := ih (collision.refracted_ray DEFAULT_JITTER) (depth + 1) (by omega)
        have hpow : 2 ^ (MAX_RAY_BOUNCES - depth + 1) =
            2 * 2 ^ (MAX_RAY_BOUNCES - (depth + 1) + 1) := by
          rw [show MAX_RAY_BOUNCES - depth + 1 = (MAX_RAY_BOUNCES - (depth + 1) + 1) + 1 by
            omega, pow_succ]
          ring
        have hone2 : (1 : ℕ) ≤ 2 ^ (MAX_RAY_BOUNCES - (depth + 1) + 1) :=
          Nat.one_le_two_pow
        omega
      · rw [if_neg hd]
        omega

/-- At exhausted depth, `reflective_ray_cast` computes only local shading. -/
lemma reflective_ray_cast_terminal (ray : Ray) (scene : List SceneObject)
    (lights : List LightSource) (depth : ℕ) (h : MAX_RAY_BOUNCES ≤ depth) :
    reflective_ray_cast ray scene lights depth = localShadeOnly ray scene lights := by
  cases hc : cast_ray ray scene with
  | none => rw [reflective_ray_cast_none lights depth hc, localShadeOnly_none lights hc]
  | some collision =>
    rw [reflective_ray_cast_some lights depth hc, if_neg (by omega),
      localShadeOnly_some lights hc]

/-- C3: the recursive trace terminates — the recursion tree of
`reflective_ray_cast` started at `depth` contains at most
`2 ^ (MAX_RAY_BOUNCES - depth + 1) - 1` calls and at most
`2 ^ (MAX_RAY_BOUNCES - depth)` leaf local-shading evaluations (hence at most
`2 ^ MAX_RAY_BOUNCES` from the initial depth 0), and whenever
`depth ≥ MAX_RAY_BOUNCES` it computes only local shading and does not
recurse. -/
theorem C3_recursion_bounded (ray : Ray) (scene : List SceneObject)
    (lights : List LightSource) (depth : ℕ) :
    countLeafShades ray scene lights depth ≤ 2 ^ (MAX_RAY_BOUNCES - depth) ∧
    countCalls ray scene lights depth ≤ 2 ^ (MAX_RAY_BOUNCES - depth + 1) - 1 ∧
    (MAX_RAY_BOUNCES ≤ depth →
      reflective_ray_cast ray scene lights depth = localShadeOnly ray scene lights) :=
  ⟨countLeafShades_le scene lights (MAX_RAY_BOUNCES - depth) ray depth le_rfl,
   countCalls_le scene lights (MAX_RAY_BOUNCES - depth) ray depth le_rfl,
   fun h => reflective_ray_cast_terminal ray scene lights depth h⟩

/-- Witness for C3: at the concrete depth 4 (= `MAX_RAY_BOUNCES`) the trace
performs no recursion — it equals the local-shading-only computation — and
the leaf count is within its bound. -/
theorem C3_witness :
    countLeafShades (Ray.new ⟨0, 0, -1⟩) [] [] 4 ≤ 2 ^ (MAX_RAY_BOUNCES - 4) ∧
    reflective_ray_cast (Ray.new ⟨0, 0, -1⟩) [] [] 4 =
      localShadeOnly (Ray.new ⟨0, 0, -1⟩) [] [] := by
  obtain ⟨h1, -, h3⟩ := C3_recursion_bounded (Ray.new ⟨0, 0, -1⟩) [] [] 4
  exact ⟨h1, h3 (by simp [MAX_RAY_BOUNCES])⟩

/-! ### C4: background color -/

/-- Evaluation of the background pixel. -/
lemma default_pixel_eval : Material.default.pixel = (51, 178, 204) := by
  show Material._to_pixel (0.2, 0.7, 0.8) = (51, 178, 204)
  have e1 : Material.toU8 (255 * 0.2) = 51 := by
    rw [Material.toU8, show (255 * (0.2 : ℝ)) = 51 by norm_num,
      show ⌊(51 : ℝ)⌋ = 51 by rw [Int.floor_eq_iff]; norm_num]
    decide
  have e2 : Material.toU8 (255 * 0.7) = 178 := by
    rw [Material.toU8, show (255 * (0.7 : ℝ)) = 178.5 by norm_num,
      show ⌊(178.5 : ℝ)⌋ = 178 by rw [Int.floor_eq_iff]; norm_num]
    decide
  have e3 : Material.toU8 (255 * 0.8) = 204 := by
    rw [Material.toU8, show (255 * (0.8 : ℝ)) = 204 by norm_num,
      show ⌊(204 : ℝ)⌋ = 204 by rw [Int.floor_eq_iff]; norm_num]
    decide
  rw [Material._to_pixel]
  rw [show ((0.2 : ℝ), (0.7 : ℝ), (0.8 : ℝ)).1 = 0.2 from rfl]
  simp only [e1, e2, e3]

/-- C4: a ray that misses every primitive makes the trace return the default
background material exactly — color `(0.2, 0.7, 0.8)`, 8-bit pixel
`(51, 178, 204)`. -/
theorem C4_background (ray : Ray) (scene : List SceneObject)
    (lights : List LightSource) (depth : ℕ)
    (h : ∀ s ∈ scene, s.ray_intersect ray = HitPoint.none) :
    reflective_ray_cast ray scene lights depth = Material.default ∧
    Material.default.color = (0.2, 0.7, 0.8) ∧
    Material.default.pixel = (51, 178, 204) := by
  have hc : cast_ray ray scene = Option.none := (cast_ray_eq_none_iff ray scene).mpr h
  exact ⟨reflective_ray_cast_none lights depth hc, rfl, default_pixel_eval⟩

/-- Witness for C4: a concrete ray on the wrong side of a concrete plane
misses the whole scene and the trace returns the background material. -/
theorem C4_witness :
    reflective_ray_cast (Ray.new ⟨0, 0, -1⟩)
        [SceneObject.plane ⟨⟨0, 0, 1⟩, ⟨0, 0, 2⟩⟩] [] 0 = Material.default ∧
      Material.default.color = (0.2, 0.7, 0.8) ∧
      Material.default.pixel = (51, 178, 204) := by
  have hmiss :
      (SceneObject.plane ⟨⟨0, 0, 1⟩, ⟨0, 0, 2⟩⟩).ray_intersect (Ray.new ⟨0, 0, -1⟩) =
        HitPoint.none := by
    rw [ray_new_negZ]
    simp only [SceneObject.ray_intersect, Plane.ray_intersect, Vec3.sub_mk, Vec3.dot]
    norm_num
  exact C4_background (Ray.new ⟨0, 0, -1⟩) [SceneObject.plane ⟨⟨0, 0, 1⟩, ⟨0, 0, 2⟩⟩] [] 0
    (by
      intro s hs
      rw [List.mem_singleton] at hs
      subst hs
      exact hmiss)

/-! ### C5, C6, C9, C10: material operations -/

/-- Every color channel of a material lies in `[0, 1]`. -/
def colorInRange (m : Material) : Prop :=
  0 ≤ m.color.1 ∧ m.color.1 ≤ 1 ∧
  0 ≤ m.color.2.1 ∧ m.color.2.1 ≤ 1 ∧
  0 ≤ m.color.2.2 ∧ m.color.2.2 ≤ 1

/-- A single clamp `.max(0).min(1)` lands in `[0, 1]`. -/
lemma clamp_mem_unit (x : ℝ) : 0 ≤ min (max x 0) 1 ∧ min (max x 0) 1 ≤ 1 :=
  ⟨le_min (le_max_right x 0) zero_le_one, min_le_right _ _⟩

/-- Each single material operation clamps every channel into `[0, 1]`. -/
lemma applyOp_colorInRange (m : Material) (op : MatOp) : colorInRange (applyOp m op) := by
  cases op with
  | adjust d s =>
    simp only [applyOp, Material.adjust_light, colorInRange]
    exact ⟨(clamp_mem_unit _).1, (clamp_mem_unit _).2, (clamp_mem_unit _).1,
      (clamp_mem_unit _).2, (clamp_mem_unit _).1, (clamp_mem_unit _).2⟩
  | mixRefl o =>
    simp only [applyOp, Material.mix_reflection, Material._mix_materials, colorInRange]
    exact ⟨(clamp_mem_unit _).1, (clamp_mem_unit _).2, (clamp_mem_unit _).1,
      (clamp_mem_unit _).2, (clamp_mem_unit _).1, (clamp_mem_unit _).2⟩
  | mixRefr o =>
    simp only [applyOp, Material.mix_refraction, Material._mix_materials, colorInRange]
    exact ⟨(clamp_mem_unit _).1, (clamp_mem_unit _).2, (clamp_mem_unit _).1,
      (clamp_mem_unit _).2, (clamp_mem_unit _).1, (clamp_mem_unit _).2⟩

/-- C5: for every material and every nonempty sequence of `adjust_light`,
`mix_reflection` and `mix_refraction` operations applied to it, each color
channel of the resulting material lies in `[0, 1]` — every step clamps its
output per channel. -/
theorem C5_sequence_clamped (m : Material) (ops : List MatOp) (h : ops ≠ []) :
    colorInRange (applyOps m ops) := by
  rcases List.eq_nil_or_concat ops with rfl | ⟨l, op, rfl⟩
  · exact absurd rfl h
  · rw [applyOps, List.concat_eq_append, List.foldl_append, List.foldl_cons,
      List.foldl_nil]
    exact applyOp_colorInRange _ _

/-- Witness for C5: a material with out-of-range starting color is clamped
into range by one `adjust_light` step. -/
theorem C5_witness :
    ([MatOp.adjust 2 3] : List MatOp) ≠ [] ∧
    colorInRange (applyOps (Material.new (5, -2, 0.5) (1, 1, 1, 1) 10 1)
      [MatOp.adjust 2 3]) :=
  ⟨by simp, C5_sequence_clamped (Material.new (5, -2, 0.5) (1, 1, 1, 1) 10 1)
    [MatOp.adjust 2 3] (by simp)⟩

/-- C6: `adjust_light(diffuse, specular)` yields, per channel,
`clamp(color·diffuse·diff_mixing_coef + specular·spec_mixing_coef, 0, 1)`. -/
theorem C6_adjust_light_formula (m : Material) (diffuse specular : ℝ) :
    (m.adjust_light diffuse specular).color =
      (clamp01 (m.color.1 * diffuse * m.diff_mixing_coef +
          specular * m.spec_mixing_coef),
       clamp01 (m.color.2.1 * diffuse * m.diff_mixing_coef +
          specular * m.spec_mixing_coef),
       clamp01 (m.color.2.2 * diffuse * m.diff_mixing_coef +
          specular * m.spec_mixing_coef)) := by
  simp only [Material.adjust_light, clamp01]
  simp only [show ∀ c : ℝ, c * (diffuse * m.diff_mixing_coef) +
      specular * m.spec_mixing_coef =
      c * diffuse * m.diff_mixing_coef + specular * m.spec_mixing_coef from
    fun c => by ring]

/-- `toU8` never exceeds 255. -/
lemma toU8_le (x : ℝ) : Material.toU8 x ≤ 255 := by
  rw [Material.toU8]
  have h := min_le_right ⌊x⌋ 255
  omega

/-- For a channel value at most 1, the `u8` cast of `255·x` is plain floor
(no saturation occurs). -/
lemma toU8_of_le_one (x : ℝ) (h1 : x ≤ 1) :
    Material.toU8 (255 * x) = ⌊255 * x⌋.toNat := by
  rw [Material.toU8, min_eq_left]
  calc ⌊255 * x⌋ ≤ ⌊(255 : ℝ)⌋ := Int.floor_le_floor (by linarith)
    _ = 255 := by rw [Int.floor_eq_iff]; norm_num

/-- C9 counterexample: at channel value `0.7` the code's conversion yields
`178` (truncation of `178.5`) while `round(255·clamp(0.7, 0, 1)) = 179`:
the conversion is not rounding. -/
theorem C9_counterexample :
    (Material._to_pixel (0.7, 0.7, 0.7)).1 = 178 ∧
    (round ((255 : ℝ) * clamp01 0.7)).toNat = 179 ∧
    (Material._to_pixel (0.7, 0.7, 0.7)).1 ≠ (round ((255 : ℝ) * clamp01 0.7)).toNat := by
  have h1 : (Material._to_pixel (0.7, 0.7, 0.7)).1 = 178 := by
    show Material.toU8 (255 * 0.7) = 178
    rw [Material.toU8, show (255 * (0.7 : ℝ)) = 178.5 by norm_num,
      show ⌊(178.5 : ℝ)⌋ = 178 by rw [Int.floor_eq_iff]; norm_num]
    decide
  have h2 : (round ((255 : ℝ) * clamp01 0.7)).toNat = 179 := by
    rw [clamp01, max_eq_left (by norm_num : (0 : ℝ) ≤ 0.7),
      min_eq_left (by norm_num : (0.7 : ℝ) ≤ 1), round_eq,
      show (255 * (0.7 : ℝ) + 1 / 2) = 179 by norm_num,
      show ⌊(179 : ℝ)⌋ = 179 by rw [Int.floor_eq_iff]; norm_num]
    decide
  exact ⟨h1, h2, by rw [h1, h2]; decide⟩

/-- C9 (amended): the 8-bit pixel channel produced by a shading step is the
truncation `⌊255·channel⌋` of the clamped channel (never exceeding 255), not
its rounding. -/
theorem C9_pixel_truncation (m : Material) (diffuse specular : ℝ) :
    (m.adjust_light diffuse specular).pixel =
      (⌊255 * (m.adjust_light diffuse specular).color.1⌋.toNat,
       ⌊255 * (m.adjust_light diffuse specular).color.2.1⌋.toNat,
       ⌊255 * (m.adjust_light diffuse specular).color.2.2⌋.toNat) ∧
    (m.adjust_light diffuse specular).pixel.1 ≤ 255 ∧
    (m.adjust_light diffuse specular).pixel.2.1 ≤ 255 ∧
    (m.adjust_light diffuse specular).pixel.2.2 ≤ 255 := by
  simp only [Material.adjust_light, Material._to_pixel]
  refine ⟨?_, toU8_le _, toU8_le _, toU8_le _⟩
  rw [toU8_of_le_one _ (clamp_mem_unit _).2, toU8_of_le_one _ (clamp_mem_unit _).2,
    toU8_of_le_one _ (clamp_mem_unit _).2]

/-- C10: `adjust_light`, `mix_reflection` and `mix_refraction` change only
the color (and the pixel derived from it): the specular exponent, the
refraction index and all four mixing coefficients are preserved. -/
theorem C10_frame_preservation (m : Material) (diffuse specular : ℝ) (o : Material) :
    ((m.adjust_light diffuse specular).specular_exponent = m.specular_exponent ∧
     (m.adjust_light diffuse specular).refraction_index = m.refraction_index ∧
     (m.adjust_light diffuse specular).diff_mixing_coef = m.diff_mixing_coef ∧
     (m.adjust_light diffuse specular).spec_mixing_coef = m.spec_mixing_coef ∧
     (m.adjust_light diffuse specular).reflection_mixing_coef =
       m.reflection_mixing_coef ∧
     (m.adjust_light diffuse specular).refraction_mixing_coef =
       m.refraction_mixing_coef) ∧
    ((m.mix_reflection o).specular_exponent = m.specular_exponent ∧
     (m.mix_reflection o).refraction_index = m.refraction_index ∧
     (m.mix_reflection o).diff_mixing_coef = m.diff_mixing_coef ∧
     (m.mix_reflection o).spec_mixing_coef = m.spec_mixing_coef ∧
     (m.mix_reflection o).reflection_mixing_coef = m.reflection_mixing_coef ∧
     (m.mix_reflection o).refraction_mixing_coef = m.refraction_mixing_coef) ∧
    ((m.mix_refraction o).specular_exponent = m.specular_exponent ∧
     (m.mix_refraction o).refraction_index = m.refraction_index ∧
     (m.mix_refraction o).diff_mixing_coef = m.diff_mixing_coef ∧
     (m.mix_refraction o).spec_mixing_coef = m.spec_mixing_coef ∧
     (m.mix_refraction o).reflection_mixing_coef = m.reflection_mixing_coef ∧
     (m.mix_refraction o).refraction_mixing_coef = m.refraction_mixing_coef) :=
  ⟨⟨rfl, rfl, rfl, rfl, rfl, rfl⟩, ⟨rfl, rfl, rfl, rfl, rfl, rfl⟩,
   ⟨rfl, rfl, rfl, rfl, rfl, rfl⟩⟩

/-! ### C7: plane intersection -/

/-- C7 (amended): `Plane::ray_intersect` returns `none` exactly when the
product of the directional and positional dot products is strictly negative
(the ray starts on the non-intersecting side); a ray parallel to the plane
(`direction·normal = 0`) makes this product zero and therefore falls into the
hit branch — with an unguarded division by zero — rather than returning
`none`. -/
theorem C7_plane_none_iff (pl : Plane) (ray : Ray) :
    pl.ray_intersect ray = HitPoint.none ↔
      pl.normal.dot ray.direction * pl.normal.dot (pl.point - ray.origin) < 0 := by
  simp only [Plane.ray_intersect]
  split
  · next hcond => exact iff_of_true rfl hcond
  · next hcond => exact iff_of_false (fun heq => HitPoint.noConfusion heq) hcond

/-- C7 counterexample: a concrete ray parallel to a concrete plane
(`direction·normal = 0`) makes `ray_intersect` return a `Point`, not
`none`. -/
theorem C7_counterexample :
    (Plane.mk ⟨0, 0, 1⟩ ⟨0, 0, 0⟩).ray_intersect
        ((Ray.new ⟨1, 0, 0⟩).set_origin ⟨0, 0, 1⟩) ≠ HitPoint.none ∧
    ((Ray.new ⟨1, 0, 0⟩).set_origin ⟨0, 0, 1⟩).direction.dot
        (Plane.mk ⟨0, 0, 1⟩ ⟨0, 0, 0⟩).normal = 0 := by
  have hnorm : (⟨1, 0, 0⟩ : Vec3).normalized = ⟨1, 0, 0⟩ := by
    have h1 : ((1 : ℝ) ^ 2 + (0 : ℝ) ^ 2 + (0 : ℝ) ^ 2) = 1 := by norm_num
    simp [Vec3.normalized, Vec3.l2, h1, Real.sqrt_one]
  have hray : (Ray.new ⟨1, 0, 0⟩).set_origin ⟨0, 0, 1⟩ =
      { origin := ⟨0, 0, 1⟩, direction := ⟨1, 0, 0⟩ } := by
    simp [Ray.new, Ray.set_origin, hnorm, Vec3.orig]
  constructor
  · rw [hray]
    simp only [Plane.ray_intersect]
    rw [if_neg (by norm_num [Vec3.dot, Vec3.sub_mk])]
    simp
  · rw [hray]
    norm_num [Vec3.dot]

/-! ### C8: rectangle intersection -/

/-- Branch equation: `Rectangle2D::ray_intersect` when the plane misses. -/
lemma rect_ray_intersect_of_plane_none {rc : Rectangle2D} {ray : Ray}
    (hp : rc.plane.ray_intersect ray = HitPoint.none) :
    rc.ray_intersect ray = HitPoint.none := by
  rw [Rectangle2D.ray_intersect, hp]

/-- Branch equation: `Rectangle2D::ray_intersect` when the plane hits. -/
lemma rect_ray_intersect_of_plane_point {rc : Rectangle2D} {ray : Ray} {p : Vec3}
    (hp : rc.plane.ray_intersect ray = HitPoint.Point p) :
    rc.ray_intersect ray =
      if ((p - rc.plane.point).project_on rc.width).l2 ≤ rc.width.l2 ∧
         ((p - rc.plane.point).project_on rc.height).l2 ≤ rc.height.l2 then
        HitPoint.Point p
      else HitPoint.none := by
  rw [Rectangle2D.ray_intersect, hp]

/-- C8: `Rectangle2D::ray_intersect` delegates to its underlying plane; on a
plane hit it accepts the point exactly when the displacement from the
rectangle's origin-point (= `plane.point`, which `Rectangle2D::new` sets to
its `origin` argument), projected onto each of the two axis vectors `width`
and `height`, has projected length within the corresponding vector's length;
otherwise it returns `none`, and every rectangle hit is a plane hit. -/
theorem C8_rectangle_projection_bounds (rc : Rectangle2D) (ray : Ray) :
    (rc.plane.ray_intersect ray = HitPoint.none →
      rc.ray_intersect ray = HitPoint.none) ∧
    (∀ p, rc.plane.ray_intersect ray = HitPoint.Point p →
      ((((p - rc.plane.point).project_on rc.width).l2 ≤ rc.width.l2 ∧
         ((p - rc.plane.point).project_on rc.height).l2 ≤ rc.height.l2) →
        rc.ray_intersect ray = HitPoint.Point p) ∧
      (¬ (((p - rc.plane.point).project_on rc.width).l2 ≤ rc.width.l2 ∧
          ((p - rc.plane.point).project_on rc.height).l2 ≤ rc.height.l2) →
        rc.ray_intersect ray = HitPoint.none)) ∧
    (∀ p, rc.ray_intersect ray = HitPoint.Point p →
      rc.plane.ray_intersect ray = HitPoint.Point p) ∧
    (∀ (origin center side_dir : Vec3) (material : Material),
      (Rectangle2D.new origin center side_dir material).plane.point = origin) := by
  refine ⟨fun h => rect_ray_intersect_of_plane_none h, fun p hp => ?_, fun p hres => ?_,
    fun origin center side_dir material => rfl⟩
  · exact ⟨fun hcond => by rw [rect_ray_intersect_of_plane_point hp, if_pos hcond],
      fun hcond => by rw [rect_ray_intersect_of_plane_point hp, if_neg hcond]⟩
  · cases hpl : rc.plane.ray_intersect ray with
    | none =>
      rw [rect_ray_intersect_of_plane_none hpl] at hres
      exact HitPoint.noConfusion hres
    | Point q =>
      rw [rect_ray_intersect_of_plane_point hpl] at hres
      by_cases hcond : (((q - rc.plane.point).project_on rc.width).l2 ≤ rc.width.l2 ∧
          ((q - rc.plane.point).project_on rc.height).l2 ≤ rc.height.l2)
      · rw [if_pos hcond] at hres
        injection hres with hqp
        exact congrArg HitPoint.Point hqp
      · rw [if_neg hcond] at hres
        exact HitPoint.noConfusion hres

/-- Witness for C8: a concrete axis-aligned rectangle on the plane `z = -2`
accepts the concrete ray through `(0,0,-1)` at the plane hit `(0,0,-2)`,
whose displacement projects within both axis vectors. -/
theorem C8_witness :
    (⟨⟨2, 0, 0⟩, ⟨0, 2, 0⟩, ⟨⟨0, 0, 1⟩, ⟨0, 0, -2⟩⟩, Material.default⟩ :
        Rectangle2D).ray_intersect (Ray.new ⟨0, 0, -1⟩) = HitPoint.Point ⟨0, 0, -2⟩ := by
  have hpl : (⟨⟨0, 0, 1⟩, ⟨0, 0, -2⟩⟩ : Plane).ray_intersect (Ray.new ⟨0, 0, -1⟩) =
      HitPoint.Point ⟨0, 0, -2⟩ := plane_negZ_hit
  have hl2w : (⟨(2 : ℝ), 0, 0⟩ : Vec3).l2 = 2 := by
    show Real.sqrt ((2 : ℝ) ^ 2 + (0 : ℝ) ^ 2 + (0 : ℝ) ^ 2) = 2
    rw [show ((2 : ℝ) ^ 2 + (0 : ℝ) ^ 2 + (0 : ℝ) ^ 2) = 2 ^ 2 by norm_num]
    exact Real.sqrt_sq (by norm_num)
  have hl2h : (⟨(0 : ℝ), 2, 0⟩ : Vec3).l2 = 2 := by
    show Real.sqrt ((0 : ℝ) ^ 2 + (2 : ℝ) ^ 2 + (0 : ℝ) ^ 2) = 2
    rw [show ((0 : ℝ) ^ 2 + (2 : ℝ) ^ 2 + (0 : ℝ) ^ 2) = 2 ^ 2 by norm_num]
    exact Real.sqrt_sq (by norm_num)
  have hl20 : (⟨(0 : ℝ), 0, 0⟩ : Vec3).l2 = 0 := by
    show Real.sqrt ((0 : ℝ) ^ 2 + (0 : ℝ) ^ 2 + (0 : ℝ) ^ 2) = 0
    rw [show ((0 : ℝ) ^ 2 + (0 : ℝ) ^ 2 + (0 : ℝ) ^ 2) = 0 by norm_num]
    exact Real.sqrt_zero
  have hprojw : ((⟨0, 0, -2⟩ - ⟨0, 0, -2⟩ : Vec3).project_on ⟨2, 0, 0⟩).l2 = 0 := by
    have hd : (⟨0, 0, -2⟩ - ⟨0, 0, -2⟩ : Vec3) = ⟨0, 0, 0⟩ := by
      rw [Vec3.sub_mk]; norm_num
    rw [hd]
    have : (⟨(0 : ℝ), 0, 0⟩ : Vec3).project_on ⟨2, 0, 0⟩ = ⟨0, 0, 0⟩ := by
      simp [Vec3.project_on, Vec3.normalized, Vec3.dot, Vec3.mult]
    rw [this]
    exact hl20
  have hprojh : ((⟨0, 0, -2⟩ - ⟨0, 0, -2⟩ : Vec3).project_on ⟨0, 2, 0⟩).l2 = 0 := by
    have hd : (⟨0, 0, -2⟩ - ⟨0, 0, -2⟩ : Vec3) = ⟨0, 0, 0⟩ := by
      rw [Vec3.sub_mk]; norm_num
    rw [hd]
    have : (⟨(0 : ℝ), 0, 0⟩ : Vec3).project_on ⟨0, 2, 0⟩ = ⟨0, 0, 0⟩ := by
      simp [Vec3.project_on, Vec3.normalized, Vec3.dot, Vec3.mult]
    rw [this]
    exact hl20
  apply (((C8_rectangle_projection_bounds
      (⟨⟨2, 0, 0⟩, ⟨0, 2, 0⟩, ⟨⟨0, 0, 1⟩, ⟨0, 0, -2⟩⟩, Material.default⟩ : Rectangle2D)
      (Ray.new ⟨0, 0, -1⟩)).2.1) ⟨0, 0, -2⟩ hpl).1
  constructor
  · show ((⟨0, 0, -2⟩ - ⟨0, 0, -2⟩ : Vec3).project_on ⟨2, 0, 0⟩).l2 ≤
      (⟨(2 : ℝ), 0, 0⟩ : Vec3).l2
    rw [hprojw, hl2w]
    norm_num
  · show ((⟨0, 0, -2⟩ - ⟨0, 0, -2⟩ : Vec3).project_on ⟨0, 2, 0⟩).l2 ≤
      (⟨(0 : ℝ), 2, 0⟩ : Vec3).l2
    rw [hprojh, hl2h]
    norm_num
